import Mathlib

/-!
Verification development for the Booking.com price-scraper repository
(`src/scrapers/price_scraper.py`), shallowly embedding its data model and
the functions the specification talks about:

* the date-window builders `get_next_30_days` and `get_dates_from_offsets`;
* the price-text normalizer `_parse_avg_price`;
* the structured-payload calendar search `_find_calendar_days` /
  `_is_calendar_days_list` and the merge `_merge_days_into`;
* the rendered-grid per-cell observation fold of `_extract_calendar_from_dom`;
* the single-hotel procedure `scrape_hotel_with_page` (navigation, retried
  extraction, snapshot assembly);
* the three multi-hotel strategies `_strategy_1_isolated`,
  `_strategy_2_shared_browser`, `_strategy_3_parallel`.

Modelling conventions:
* Calendar dates are day numbers (`Int`).  The code keys dictionaries and
  sorts snapshots by ISO-8601 `"%Y-%m-%d"` strings; that formatting is
  injective and strictly monotone on calendar dates, so keying/sorting on
  day numbers is observationally identical.
* Python floats are modelled by `ℚ`.  All prices appearing here are decimal
  literals with at most two fractional digits and the only comparisons are
  against 10 and 10000, on which binary floating point and exact rationals
  agree.
* Python dicts are association lists updated in place (insertion order is
  preserved, matching Python's dict semantics).
* A Python function that may raise an exception observable by its callers is
  modelled with an `Option` result (`none` = an exception escaped).
* `sorted(...)` is modelled by the stable `List.insertionSort`; CPython's
  sort is also stable, and stable sorts agree extensionally.
-/

namespace Booking

/-- One raw per-date observation: the value stored in the `calendar_days`
dict, i.e. the Python dict `{"price": float-or-None, "available": bool}`. -/
structure Obs where
  price : Option ℚ
  available : Bool
deriving DecidableEq

/-- Python dict lookup `m.get(k)` on an association list. -/
def mapGet {κ : Type} [DecidableEq κ] (m : List (κ × Obs)) (k : κ) : Option Obs :=
  (m.find? (fun p => p.1 = k)).map (fun p => p.2)

/-- Python dict assignment `m[k] = v` on an association list: replaces the
(unique) binding in place if the key is present, else appends it.  The maps
built here always have distinct keys, as Python dicts do. -/
def mapSet {κ : Type} [DecidableEq κ] : List (κ × Obs) → κ → Obs → List (κ × Obs)
  | [], k, v => [(k, v)]
  | p :: rest, k, v => if p.1 = k then (k, v) :: rest else p :: mapSet rest k v

/- ----------------------------------------------------------------
   Date Window Builder (`get_next_30_days`, `get_dates_from_offsets`)
   ---------------------------------------------------------------- -/

/-- `get_next_30_days(max_dates)`: `[today + i for i in range(1, 31)]`,
truncated to the first `max_dates` entries when `max_dates` is not `None`
and positive.  `today` is passed explicitly here (the code reads the clock). -/
def get_next_30_days (today : Int) (max_dates : Option Int) : List Int :=
  let days := (List.range 30).map (fun (i : Nat) => today + ((i : Int) + 1))
  match max_dates with
  | some m => if 0 < m then days.take m.toNat else days
  | none => days

/-- `get_dates_from_offsets(offsets)`: `[today + o for o in sorted(offsets)]`. -/
def get_dates_from_offsets (today : Int) (offsets : List Int) : List Int :=
  (List.insertionSort (· ≤ ·) offsets).map (fun o => today + o)

/- ----------------------------------------------------------------
   Price Text Normalizer (`_parse_avg_price`)
   ---------------------------------------------------------------- -/

/-- ASCII whitespace as matched by `\s` / stripped by `str.strip()` (the
non-breaking space is replaced by a plain space before any of this runs). -/
def isPySpace (c : Char) : Bool :=
  c == ' ' || c == '\t' || c == '\n' || c == '\r' || c == Char.ofNat 11 || c == Char.ofNat 12

/-- `str.strip()`. -/
def pyStrip (s : String) : String :=
  String.mk (((s.toList.dropWhile isPySpace).reverse.dropWhile isPySpace).reverse)

/-- The non-breaking space `\xa0`. -/
def nbsp : Char := Char.ofNat 160

/-- Matching of `\d[\d\s]*(?:[.,]\d{2})?` anchored at the head of the input;
returns the matched characters.  The greedy digit/space run can never consume
a separator, so the optional decimal group matches exactly when a `.`/`,`
followed by two digits comes right after the run (no backtracking needed). -/
def matchNum : List Char → Option (List Char)
  | [] => none
  | c :: rest =>
    if c.isDigit then
      let run := rest.takeWhile (fun x => x.isDigit || isPySpace x)
      let after := rest.drop run.length
      let core := c :: run
      match after with
      | s :: d1 :: d2 :: _ =>
        if (s == '.' || s == ',') && d1.isDigit && d2.isDigit then some (core ++ [s, d1, d2])
        else some core
      | _ => some core
    else none

/-- `re.search` for `€\s*(\d[\d\s]*(?:[.,]\d{2})?)`: first `€` position where,
after skipping whitespace, a number matches; the group excludes `€\s*`. -/
def searchEuroNum : List Char → Option (List Char)
  | [] => none
  | c :: rest =>
    if c == '€' then
      match matchNum (rest.dropWhile isPySpace) with
      | some g => some g
      | none => searchEuroNum rest
    else searchEuroNum rest

/-- `re.search` for the fallback pattern `(\d[\d\s]*(?:[.,]\d{2})?)`:
match at the first digit position. -/
def searchNum : List Char → Option (List Char)
  | [] => none
  | c :: rest =>
    match matchNum (c :: rest) with
    | some g => some g
    | none => searchNum rest

/-- Numeric value of a digit string. -/
def digitsVal (cs : List Char) : Nat :=
  cs.foldl (fun acc c => acc * 10 + (c.toNat - 48)) 0

/-- Python `float(s)` on the shapes reachable here (a digit run, optionally
followed by `.` and a digit run); any other shape raises `ValueError`,
modelled by `none`.  The decimal value is built with `Rat.divInt` so that
concrete runs reduce inside the kernel. -/
def pyFloat (cs : List Char) : Option ℚ :=
  let ip := cs.takeWhile Char.isDigit
  let rest := cs.drop ip.length
  if ip.isEmpty then none
  else
    match rest with
    | [] => some ((digitsVal ip : ℕ) : ℚ)
    | c :: frac =>
      if c == '.' && frac.all Char.isDigit then
        some (Rat.divInt ((digitsVal ip * 10 ^ frac.length + digitsVal frac : ℕ) : Int)
          ((10 : Int) ^ frac.length))
      else none

/-- `_parse_avg_price(formatted)`: turn `"€ 152"`-style text into a number;
`None` when the text is empty/unmatchable or the value falls outside
`[10, 10000)`. -/
def parse_avg_price (formatted : String) : Option ℚ :=
  if formatted == "" then none
  else
    let text := pyStrip (String.mk (formatted.toList.map (fun c => if c == nbsp then ' ' else c)))
    let g :=
      match searchEuroNum text.toList with
      | some g => some g
      | none => searchNum text.toList
    match g with
    | none => none
    | some grp =>
      let s := (grp.filter (fun c => !(c == ' '))).map (fun c => if c == ',' then '.' else c)
      if s.isEmpty then none
      else
        match pyFloat s with
        | none => none
        | some p => if 10 ≤ p ∧ p < 10000 then some p else none

/- ----------------------------------------------------------------
   Calendar Locator, structured-payload path
   (`_is_calendar_days_list`, `_find_calendar_days`, `_merge_days_into`)
   ---------------------------------------------------------------- -/

/-- JSON-like Python values (the nested dict/list payloads the structured
search walks).  Dict fields are kept in insertion order. -/
inductive JVal where
  | str (s : String)
  | num (q : ℚ)
  | bool (b : Bool)
  | null
  | arr (items : List JVal)
  | obj (fields : List (String × JVal))

/-- Python `obj.get(k)`: the first binding of `k`, else `None` (`.null`). -/
def pyGet (fs : List (String × JVal)) (k : String) : JVal :=
  match fs.find? (fun p => p.1 == k) with
  | some p => p.2
  | none => JVal.null

/-- Python truthiness of a value (`if not checkin`, `x or ""`). -/
def JVal.truthy : JVal → Bool
  | .str s => !(s == "")
  | .num q => !(q = 0 : Bool)
  | .bool b => b
  | .null => false
  | .arr items => !items.isEmpty
  | .obj fields => !fields.isEmpty

/-- Python `v is True`. -/
def isPyTrue : JVal → Bool
  | .bool b => b
  | _ => false

/-- `_is_calendar_days_list(days)`: `days` is a non-empty list whose first
entry is a dict containing the key `"checkin"`. -/
def is_calendar_days_list : JVal → Bool
  | .arr (first :: _) =>
    match first with
    | .obj fs => fs.any (fun p => p.1 == "checkin")
    | _ => false
  | _ => false

mutual

/-- `_find_calendar_days(obj)`: depth-first search for a dict whose `"days"`
value passes `_is_calendar_days_list`; otherwise recurse into dict values /
list items in order.  `if found:` keeps searching past an empty list. -/
def find_calendar_days : JVal → Option (List JVal)
  | .obj fs =>
    if is_calendar_days_list (pyGet fs "days") then
      match pyGet fs "days" with
      | .arr items => some items
      | _ => none
    else find_in_fields fs
  | .arr items => find_in_items items
  | _ => none

/-- The `for v in obj.values()` loop of `_find_calendar_days`. -/
def find_in_fields : List (String × JVal) → Option (List JVal)
  | [] => none
  | (_, v) :: rest =>
    match find_calendar_days v with
    | some l => if l.isEmpty then find_in_fields rest else some l
    | none => find_in_fields rest

/-- The `for item in obj` loop of `_find_calendar_days`. -/
def find_in_items : List JVal → Option (List JVal)
  | [] => none
  | v :: rest =>
    match find_calendar_days v with
    | some l => if l.isEmpty then find_in_items rest else some l
    | none => find_in_items rest

end

mutual

/-- Reference predicate: some node of the payload has a `"days"` value that
passes `_is_calendar_days_list`. -/
def hasDaysNode : JVal → Bool
  | .obj fs => is_calendar_days_list (pyGet fs "days") || hasDaysFields fs
  | .arr items => hasDaysItems items
  | _ => false

/-- `hasDaysNode` over dict values. -/
def hasDaysFields : List (String × JVal) → Bool
  | [] => false
  | (_, v) :: rest => hasDaysNode v || hasDaysFields rest

/-- `hasDaysNode` over list items. -/
def hasDaysItems : List JVal → Bool
  | [] => false
  | v :: rest => hasDaysNode v || hasDaysItems rest

end

/-- Hashable Python values, the only ones usable as dict keys; a list or
dict key raises `TypeError`. -/
inductive PyKey where
  | str (s : String)
  | num (q : ℚ)
  | bool (b : Bool)
  | null
deriving DecidableEq

/-- The key view of a value: `none` models the `TypeError` raised when an
unhashable value is used as a dict key. -/
def toKey : JVal → Option PyKey
  | .str s => some (.str s)
  | .num q => some (.num q)
  | .bool b => some (.bool b)
  | .null => some .null
  | _ => none

/-- `calendar_days` as keyed by the structured path (keys are whatever the
payload's `checkin` values are). -/
abbrev CalMapJ := List (PyKey × Obs)

/-- The body of `_merge_days_into`'s loop for one entry `d` of `days`:
`none` models an escaped exception (`d` is not a dict, `avgPriceFormatted`
is truthy but not a string, or `checkin` is unhashable). -/
def mergeOneDay (calendar_days : CalMapJ) (d : JVal) : Option CalMapJ :=
  match d with
  | .obj fs =>
    let checkin := pyGet fs "checkin"
    if !checkin.truthy then some calendar_days
    else
      let available := isPyTrue (pyGet fs "available")
      match (if (pyGet fs "avgPriceFormatted").truthy then pyGet fs "avgPriceFormatted"
             else JVal.str "") with
      | .str s0 =>
        let formatted := pyStrip s0
        let price := if available then parse_avg_price formatted else none
        let available2 :=
          if price.isNone && available && formatted.toList.contains '0' then false
          else available
        match toKey checkin with
        | some key => some (mapSet calendar_days key ⟨price, available2⟩)
        | none => none
      | _ => none
  | _ => none

/-- `_merge_days_into(calendar_days, days)`: fold the per-entry body over
`days`, propagating an escaped exception. -/
def merge_days_into (calendar_days : CalMapJ) : List JVal → Option CalMapJ
  | [] => some calendar_days
  | d :: rest =>
    match mergeOneDay calendar_days d with
    | some cal2 => merge_days_into cal2 rest
    | none => none

/- ----------------------------------------------------------------
   Calendar Locator, rendered-grid path (`_extract_calendar_from_dom`)
   ---------------------------------------------------------------- -/

/-- One candidate calendar cell of the in-page script of
`_extract_calendar_from_dom`, after the DOM-dependent steps: `checkin` is
the date parsed from the cell's date attribute (`none` models the
`if (!checkin) continue`), `price` the first currency-like number of the
cell text (`null` when absent), `disabled` the explicit disabled marker. -/
structure DomCell where
  checkin : Option Int
  price : Option ℚ
  disabled : Bool

/-- The per-cell body of the in-page script: classify the cell and write it
into `out`, overwriting an existing entry only when the key is new or the
cell is available. -/
def domCellStep (out : List (Int × Obs)) (c : DomCell) : List (Int × Obs) :=
  match c.checkin with
  | none => out
  | some checkin =>
    let available :=
      !c.disabled &&
        (match c.price with
         | some p => decide ((10 : ℚ) ≤ p)
         | none => false)
    if (mapGet out checkin).isNone || available then
      mapSet out checkin ⟨if available then c.price else none, available⟩
    else out

/-- The cell loop of `_extract_calendar_from_dom`'s in-page script, from the
already-selected candidate cells to the returned date → observation map. -/
def extract_calendar_from_dom (cells : List DomCell) : List (Int × Obs) :=
  cells.foldl domCellStep []

/- ----------------------------------------------------------------
   Single-Hotel Extraction Procedure (`scrape_hotel_with_page`)
   ---------------------------------------------------------------- -/

/-- A hotel record (`hotel["id"]`, `hotel["name"]`, `hotel["url"]`). -/
structure Hotel where
  id : String
  name : String
  url : String

/-- Outcome of one `_extract_calendar_from_dom(page)` call inside the retry
loop: the date → observation map the page's script returned, or an
exception escaping `page.evaluate`. -/
inductive AttemptResult where
  | ok (dom : List (Int × Obs))
  | raise

/-- The observable behaviour of the external page for one hotel:
`stepsFail` is true when an exception is raised in steps 1–4 (navigation,
cookies, scroll, date-button activation or click) before any extraction
attempt; `attempts` gives each retry's extraction outcome. -/
structure PageBehavior where
  stepsFail : Bool
  attempts : List AttemptResult

/-- The `for attempt in range(3)` retry loop: merge each non-empty result
into `calendar_days` unconditionally (`calendar_days[checkin] = info`),
stop early once `min(3, total)` dates are collected; an exception aborts
the rest of the loop but keeps what was already merged. -/
def retryLoop : List AttemptResult → Nat → List (Int × Obs) → List (Int × Obs)
  | [], _, calendar_days => calendar_days
  | .raise :: _, _, calendar_days => calendar_days
  | .ok dom :: rest, total, calendar_days =>
    if dom.isEmpty then retryLoop rest total calendar_days
    else
      let cal2 := dom.foldl (fun c kv => mapSet c kv.1 kv.2) calendar_days
      if min 3 total ≤ cal2.length then cal2 else retryLoop rest total cal2

/-- The `calendar_days` dict collected by steps 1–5 for a page behaviour:
empty when steps 1–4 raised, else the retry loop's result (at most 3
attempts, as in `range(3)`). -/
def collect_calendar (pb : PageBehavior) (total : Nat) : List (Int × Obs) :=
  if pb.stepsFail then [] else retryLoop (pb.attempts.take 3) total []

/-- One output row (`{"hotelId", "dateCheckin", "price", "currency",
"available"}`). -/
structure Snapshot where
  hotelId : String
  dateCheckin : Int
  price : Option ℚ
  currency : String
  available : Bool
deriving DecidableEq

/-- Step 6 for one date: `info = calendar_days.get(checkin_str, {})`;
a missing date yields price `None`/available `False`, a present one yields
its price with `available = (price is not None)`. -/
def assemble (hotel : Hotel) (calendar_days : List (Int × Obs)) (d : Int) : Snapshot :=
  match mapGet calendar_days d with
  | none => ⟨hotel.id, d, none, "EUR", false⟩
  | some info => ⟨hotel.id, d, info.price, "EUR", info.price.isSome⟩

/-- Ordering used by `sorted(snapshots, key=lambda s: s["dateCheckin"])`. -/
abbrev snapLE (a b : Snapshot) : Prop := a.dateCheckin ≤ b.dateCheckin

instance : DecidableRel snapLE := fun a b => inferInstanceAs (Decidable (a.dateCheckin ≤ b.dateCheckin))

/-- `scrape_hotel_with_page(page, hotel, dates)`: build the URL from
`dates[0]`/`dates[-1]` (an `IndexError` escapes on an empty window, modelled
by `none`), run steps 1–5 under the catch-all `except`, then assemble one
snapshot per window date and return them sorted by check-in date. -/
def scrape_hotel_with_page (pb : PageBehavior) (hotel : Hotel) (dates : List Int) :
    Option (List Snapshot) :=
  match dates with
  | [] => none
  | _ :: _ =>
    let total := dates.length
    let calendar_days := collect_calendar pb total
    let snapshots := dates.map (assemble hotel calendar_days)
    some (List.insertionSort snapLE snapshots)

/- ----------------------------------------------------------------
   Multi-Hotel Orchestrator (`_strategy_1_isolated`,
   `_strategy_2_shared_browser`, `_strategy_3_parallel`)
   ---------------------------------------------------------------- -/

/-- The `stats` dict each strategy accumulates. -/
structure RunStats where
  total_hotels : Nat
  total_snapshots : Nat
  successful_hotels : Nat
  failed_hotels : Nat
  errors : List String
deriving DecidableEq

/-- One hotel's slice of a run: the hotel, whether acquiring its session
(`create_stealth_browser_full` / `context.new_page`) raises, and the page
behaviour seen once a session exists.  `close_browser_full` swallows its own
exceptions, so teardown never raises. -/
structure HotelRun where
  hotel : Hotel
  sessionFails : Bool
  pb : PageBehavior

/-- Per-hotel accounting shared by the three strategies' loop bodies: a
session failure (or the `IndexError` of an empty window escaping
`scrape_hotel_with_page`) increments `failed_hotels` and appends an error
entry naming the hotel; otherwise the snapshots are appended and
`successful_hotels`/`total_snapshots` grow.  Error strings are
`f"{hotel['name']}: {e}"`; only the name is inspected by the spec, so the
entry is modelled by the hotel's name. -/
def hotelStep (dates : List Int) (acc : RunStats × List Snapshot) (r : HotelRun) :
    RunStats × List Snapshot :=
  let (stats, all_snapshots) := acc
  if r.sessionFails then
    ({ stats with failed_hotels := stats.failed_hotels + 1,
                  errors := stats.errors ++ [r.hotel.name] }, all_snapshots)
  else
    match scrape_hotel_with_page r.pb r.hotel dates with
    | some snapshots =>
      ({ stats with total_snapshots := stats.total_snapshots + snapshots.length,
                    successful_hotels := stats.successful_hotels + 1 },
       all_snapshots ++ snapshots)
    | none =>
      ({ stats with failed_hotels := stats.failed_hotels + 1,
                    errors := stats.errors ++ [r.hotel.name] }, all_snapshots)

/-- Initial `stats` dict. -/
def initStats (n : Nat) : RunStats := ⟨n, 0, 0, 0, []⟩

/-- `_strategy_1_isolated`: one fresh session per hotel, hotels processed
sequentially in input order (the inter-hotel pause does not affect the
returned data). -/
def strategy_1_isolated (hotels : List HotelRun) (dates : List Int) :
    RunStats × List Snapshot :=
  hotels.foldl (hotelStep dates) (initStats hotels.length, [])

/-- `_strategy_2_shared_browser`: one shared session, a tab per hotel,
hotels processed sequentially in input order; the per-hotel `try/except`
does the same accounting as strategy 1 (tab close failures are swallowed). -/
def strategy_2_shared_browser (hotels : List HotelRun) (dates : List Int) :
    RunStats × List Snapshot :=
  hotels.foldl (hotelStep dates) (initStats hotels.length, [])

/-- `_strategy_3_parallel`: a bounded worker pool; results are folded in
completion order (`as_completed`), which is a permutation of the input list
chosen by the scheduler, here passed explicitly as `completed`.  Each
worker's `scrape_one` catches its own exceptions, so `future.result()`
feeds the same per-hotel accounting. -/
def strategy_3_parallel (hotels : List HotelRun) (completed : List HotelRun)
    (dates : List Int) : RunStats × List Snapshot :=
  completed.foldl (hotelStep dates) (initStats hotels.length, [])

/-- The per-hotel block of snapshots a strategy contributes for one hotel:
empty on failure, the full scraped window otherwise. -/
def perHotelBlock (dates : List Int) (r : HotelRun) : List Snapshot :=
  if r.sessionFails then [] else (scrape_hotel_with_page r.pb r.hotel dates).getD []

/- ----------------------------------------------------------------
   Helper lemmas
   ---------------------------------------------------------------- -/

theorem mapGet_mapSet_self {κ : Type} [DecidableEq κ] (m : List (κ × Obs)) (k : κ) (v : Obs) :
    mapGet (mapSet m k v) k = some v := by
  induction m with
  | nil => simp [mapGet, mapSet]
  | cons p rest ih =>
    by_cases h : p.1 = k
    · simp [mapGet, mapSet, h]
    · simp only [mapSet, if_neg h]
      simpa [mapGet, List.find?, h] using ih

theorem mapGet_mapSet_ne {κ : Type} [DecidableEq κ] (m : List (κ × Obs)) (k k2 : κ) (v : Obs)
    (h : k2 ≠ k) : mapGet (mapSet m k v) k2 = mapGet m k2 := by
  induction m with
  | nil =>
    simp only [mapSet, mapGet, List.find?]
    simp [Ne.symm h]
  | cons p rest ih =>
    by_cases hp : p.1 = k
    · subst hp
      simp [mapGet, mapSet, List.find?, Ne.symm h]
    · simp only [mapSet, if_neg hp]
      by_cases hp2 : p.1 = k2
      · simp [mapGet, List.find?, hp2]
      · simpa [mapGet, List.find?, hp2] using ih

/- ----------------------------------------------------------------
   C4: price-text normalizer bounds and examples
   ---------------------------------------------------------------- -/

/-- C4: for every input string the Price Text Normalizer returns an absent
result unless the parsed amount lies in `[10, 10000)`; and the worked
examples hold: `"€ 152"` parses to `152.0`, `"€ 0"` and `"€ 3"` are absent,
the empty input is absent, and `"€ 1 250,50"` parses to `1250.50`. -/
theorem C4_price_bounds (s : String) (p : ℚ) (h : parse_avg_price s = some p) :
    (10 ≤ p ∧ p < 10000)
    ∧ parse_avg_price "€ 152" = some 152
    ∧ parse_avg_price "€ 0" = none
    ∧ parse_avg_price "€ 3" = none
    ∧ parse_avg_price "" = none
    ∧ parse_avg_price "€ 1 250,50" = some 1250.5 := by
  refine ⟨?_, by decide, by decide, by decide, by decide, ?_⟩
  · simp only [parse_avg_price] at h
    split at h
    · exact Option.noConfusion h
    · split at h
      · exact Option.noConfusion h
      · split at h
        · exact Option.noConfusion h
        · split at h
          · exact Option.noConfusion h
          · split at h
            · rename_i hbound
              cases h
              exact hbound
            · exact Option.noConfusion h
  · have h2 : parse_avg_price "€ 1 250,50" = some (Rat.divInt 125050 100) := by decide
    rw [h2, Rat.divInt_eq_div]
    norm_num

/-- C4 witness: the general bound applied at `"€ 152"`. -/
theorem C4_price_bounds_witness : (10 ≤ (152 : ℚ) ∧ (152 : ℚ) < 10000) :=
  (C4_price_bounds "€ 152" 152 (by decide)).1

/- ----------------------------------------------------------------
   C6: date-window builder
   ---------------------------------------------------------------- -/

/-- C6 counterexample: the offset-based builder is part of the Date Window
Builder, yet with the duplicate offset list `[1, 1]` its window is not
strictly ascending, and with offsets `[0]` its first date equals "today"
instead of being strictly after it. -/
theorem C6_counterexample :
    get_dates_from_offsets 0 [1, 1] = [1, 1]
    ∧ (¬ List.Chain' (· < ·) ([1, 1] : List Int))
    ∧ get_dates_from_offsets 0 [0] = [0]
    ∧ ¬ ((0 : Int) < 0) := by
  refine ⟨rfl, ?_, rfl, by decide⟩
  intro hch
  rw [List.chain'_cons] at hch
  exact absurd hch.1 (lt_irrefl 1)

/-- C6 (amended): the default builder produces exactly the dates
`today+1 … today+30`, truncated to the first `maxDates` dates when a
positive cap is given; consequently its windows are strictly ascending,
of length at most 30 (and at most a positive cap), contain only dates
strictly after today, and start at `today+1`.  The offsets builder always
returns the dates `today+offset` (as a multiset) sorted non-decreasing;
it is strictly ascending only when the offsets are distinct, and starts
strictly after today only when every offset is strictly positive. -/
theorem C6_window_builder_amended (today : Int) (maxDates : Option Int) (offsets : List Int) :
    get_next_30_days today none
      = (List.range 30).map (fun (i : Nat) => today + ((i : Int) + 1))
    ∧ (∀ m : Int, 0 < m → get_next_30_days today (some m)
        = (List.range (min m.toNat 30)).map (fun (i : Nat) => today + ((i : Int) + 1)))
    ∧ List.Chain' (· < ·) (get_next_30_days today maxDates)
    ∧ (get_next_30_days today maxDates).length ≤ 30
    ∧ (∀ m : Int, maxDates = some m → 0 < m →
        ((get_next_30_days today maxDates).length : Int) ≤ m)
    ∧ (∀ d ∈ get_next_30_days today maxDates, today < d)
    ∧ (get_next_30_days today maxDates).head? = some (today + 1)
    ∧ List.Sorted (· ≤ ·) (get_dates_from_offsets today offsets)
    ∧ List.Perm (get_dates_from_offsets today offsets) (offsets.map (fun o => today + o))
    ∧ (offsets.Nodup → List.Chain' (· < ·) (get_dates_from_offsets today offsets))
    ∧ ((∀ o ∈ offsets, 0 < o) → ∀ d ∈ get_dates_from_offsets today offsets, today < d) := by
  have hdays : ∀ d ∈ (List.range 30).map (fun (i : Nat) => today + ((i : Int) + 1)), today < d := by
    intro d hd
    obtain ⟨i, _, rfl⟩ := List.mem_map.1 hd
    omega
  have hpair : ((List.range 30).map (fun (i : Nat) => today + ((i : Int) + 1))).Pairwise (· < ·) := by
    refine (List.pairwise_lt_range 30).map _ ?_
    intro a b hab
    omega
  have hsub : ∀ l, (get_next_30_days today l).Sublist
      ((List.range 30).map (fun (i : Nat) => today + ((i : Int) + 1))) := by
    intro l
    unfold get_next_30_days
    match l with
    | none => exact List.Sublist.refl _
    | some m =>
      by_cases hm : 0 < m
      · simpa [hm] using List.take_sublist _ _
      · simp only [hm, if_neg]
        exact List.Sublist.refl _
  refine ⟨rfl, ?_, ?_, ?_, ?_, ?_, ?_, ?_, ?_, ?_, ?_⟩
  · intro m hm
    simp only [get_next_30_days]
    rw [if_pos hm, ← List.map_take, List.take_range]
  · exact (List.Pairwise.sublist (hsub maxDates) hpair).chain'
  · calc (get_next_30_days today maxDates).length
        ≤ ((List.range 30).map (fun (i : Nat) => today + ((i : Int) + 1))).length :=
          (hsub maxDates).length_le
      _ = 30 := by rw [List.length_map, List.length_range]
  · intro m hm hmpos
    subst hm
    have : (get_next_30_days today (some m)).length ≤ m.toNat := by
      unfold get_next_30_days
      simp [hmpos]
    omega
  · intro d hd
    exact hdays d ((hsub maxDates).mem hd)
  · have htake : ∀ (n : Nat) (l : List Int), 0 < n → (l.take n).head? = l.head? := by
      intro n l hn
      cases l with
      | nil => simp
      | cons a t =>
        cases n with
        | zero => omega
        | succ k => rfl
    cases maxDates with
    | none => rfl
    | some m =>
      by_cases hm : 0 < m
      · have h1 : get_next_30_days today (some m) =
            ((List.range 30).map (fun (i : Nat) => today + ((i : Int) + 1))).take m.toNat := by
          simp only [get_next_30_days]
          rw [if_pos hm]
        rw [h1, htake _ _ (by omega)]
        rfl
      · have h1 : get_next_30_days today (some m) =
            (List.range 30).map (fun (i : Nat) => today + ((i : Int) + 1)) := by
          simp only [get_next_30_days]
          rw [if_neg hm]
        rw [h1]
        rfl
  · exact (List.sorted_insertionSort (· ≤ ·) offsets).map _ (fun a b hab => by omega)
  · exact List.Perm.map (fun o => today + o) (List.perm_insertionSort (· ≤ ·) offsets)
  · intro hnd
    have hsorted : (List.insertionSort (· ≤ ·) offsets).Pairwise (· ≤ (· : Int)) :=
      List.sorted_insertionSort (· ≤ ·) offsets
    have hnd2 : (List.insertionSort (· ≤ ·) offsets).Nodup :=
      ((List.perm_insertionSort (· ≤ ·) offsets).nodup_iff).2 hnd
    have hlt : (List.insertionSort (· ≤ ·) offsets).Pairwise (· < (· : Int)) :=
      List.Sorted.lt_of_le hsorted hnd2
    refine (hlt.map _ ?_).chain'
    intro a b hab
    omega
  · intro hpos d hd
    obtain ⟨o, ho, rfl⟩ := List.mem_map.1 hd
    have := hpos o ((List.perm_insertionSort (· ≤ ·) offsets).mem_iff.1 ho)
    omega

/-- C6 witness: the amended statement applied at cap 3 (the produced window
is `today+1 … today+3`) and at the distinct positive offsets `[1, 7, 30]`
(the window is strictly ascending). -/
theorem C6_window_builder_witness :
    get_next_30_days 100 (some 3)
      = (List.range (min (3 : Int).toNat 30)).map (fun (i : Nat) => (100 : Int) + ((i : Int) + 1))
    ∧ List.Chain' (· < ·) (get_dates_from_offsets 100 [1, 7, 30]) := by
  have h := C6_window_builder_amended 100 (some 3) [1, 7, 30]
  exact ⟨h.2.1 3 (by decide), h.2.2.2.2.2.2.2.2.2.1 (by decide)⟩

/- ----------------------------------------------------------------
   C1 and C5: the merge/overwrite behaviour
   ---------------------------------------------------------------- -/

/-- A structured-payload day entry reporting its date available at `€ 120`. -/
def dayAvailable120 : JVal :=
  .obj [("checkin", .str "2026-02-11"), ("available", .bool true),
        ("avgPriceFormatted", .str "€ 120")]

/-- A structured-payload day entry reporting the same date unavailable. -/
def dayUnavailable : JVal :=
  .obj [("checkin", .str "2026-02-11"), ("available", .bool false),
        ("avgPriceFormatted", .null)]

/-- The fields of a day entry reporting available with a price text that
fails normalization and contains no `'0'`. -/
def dayAvailable3Fields : List (String × JVal) :=
  [("checkin", .str "2026-02-11"), ("available", .bool true),
   ("avgPriceFormatted", .str "€ 3")]

/-- The day entry built from `dayAvailable3Fields`. -/
def dayAvailable3 : JVal := .obj dayAvailable3Fields

theorem domCellStep_preserves (out : List (Int × Obs)) (c : DomCell) (k : Int) (o : Obs)
    (h : mapGet out k = some o) (hav : o.available = true) :
    ∃ o2, mapGet (domCellStep out c) k = some o2 ∧ o2.available = true := by
  unfold domCellStep
  cases hc : c.checkin with
  | none => exact ⟨o, h, hav⟩
  | some kc =>
    simp only
    by_cases hkk : kc = k
    · subst hkk
      rw [h]
      by_cases ha : (!c.disabled &&
          (match c.price with
           | some p => decide ((10 : ℚ) ≤ p)
           | none => false)) = true
      · refine ⟨⟨c.price, true⟩, ?_, rfl⟩
        simp [ha, mapGet_mapSet_self]
      · simp only [Bool.not_eq_true] at ha
        simp only [ha, Option.isNone_some, Bool.or_false]
        exact ⟨o, h, hav⟩
    · by_cases hcond : ((mapGet out kc).isNone ||
          (!c.disabled &&
            (match c.price with
             | some p => decide ((10 : ℚ) ≤ p)
             | none => false))) = true
      · simp only [hcond, if_pos]
        refine ⟨o, ?_, hav⟩
        rw [mapGet_mapSet_ne _ _ _ _ (fun hh => hkk hh.symm)]
        exact h
      · simp only [Bool.not_eq_true] at hcond
        simp only [hcond]
        exact ⟨o, h, hav⟩

theorem domFold_preserves_available (cells : List DomCell) (out : List (Int × Obs))
    (k : Int) (o : Obs) (h : mapGet out k = some o) (hav : o.available = true) :
    ∃ o2, mapGet (cells.foldl domCellStep out) k = some o2 ∧ o2.available = true := by
  induction cells generalizing out o with
  | nil => exact ⟨o, h, hav⟩
  | cons c rest ih =>
    obtain ⟨o2, h2, hav2⟩ := domCellStep_preserves out c k o h hav
    exact ih (domCellStep out c) o2 h2 hav2

/-- C1 counterexample: `_merge_days_into` is unconditional last-write-wins,
so merging the available entry (price 120) and then the unavailable entry
for the same date leaves the date unavailable with no price — the claim
predicted the available result with price 120.0 for this order too. -/
theorem C1_counterexample :
    merge_days_into [] [dayAvailable120, dayUnavailable] =
      some [(PyKey.str "2026-02-11", ⟨none, false⟩)]
    ∧ Obs.mk none false ≠ Obs.mk (some 120) true := by
  exact ⟨rfl, by decide⟩

/-- C1 (amended): the availability-preserving overwrite rule holds only
inside a single rendered-grid extraction pass (the cell loop of
`_extract_calendar_from_dom`): once an available observation is recorded
for a date, later cells of the same pass never revert it.  Across the
structured-payload merge `_merge_days_into` (and likewise across retried
extraction passes) later writes overwrite unconditionally: merging the
unavailable entry then the available `€ 120` entry yields the available
result, but the reverse order yields the unavailable result. -/
theorem C1_available_overwrite_amended (cells : List DomCell) (init : List (Int × Obs))
    (k : Int) (o : Obs) (h : mapGet init k = some o) (hav : o.available = true) :
    (∃ o2, mapGet (cells.foldl domCellStep init) k = some o2 ∧ o2.available = true)
    ∧ merge_days_into [] [dayUnavailable, dayAvailable120] =
        some [(PyKey.str "2026-02-11", ⟨some 120, true⟩)]
    ∧ merge_days_into [] [dayAvailable120, dayUnavailable] =
        some [(PyKey.str "2026-02-11", ⟨none, false⟩)] := by
  exact ⟨domFold_preserves_available cells init k o h hav, rfl, rfl⟩

/-- C1 witness: the within-pass preservation applied to a concrete pass in
which an available price-120 observation for date 1 is followed by a
disabled cell for the same date. -/
theorem C1_available_overwrite_witness :
    ∃ o2, mapGet ([DomCell.mk (some 1) (some 50) true].foldl domCellStep
      [((1 : Int), Obs.mk (some 120) true)]) 1 = some o2 ∧ o2.available = true :=
  (C1_available_overwrite_amended [DomCell.mk (some 1) (some 50) true]
    [((1 : Int), Obs.mk (some 120) true)] 1 (Obs.mk (some 120) true) rfl rfl).1

/-- C5 counterexample: the day entry reports available=true and the price
text `"€ 3"` fails normalization, yet the stored observation keeps
available=true (the downgrade in `_merge_days_into` additionally requires
the character `'0'` in the text) — the claim predicted available=false. -/
theorem C5_counterexample :
    merge_days_into [] [dayAvailable3] = some [(PyKey.str "2026-02-11", ⟨none, true⟩)]
    ∧ (Obs.mk none true).available ≠ false := by
  exact ⟨rfl, by decide⟩

/-- C5 (amended): for a structured day entry whose availability flag is
reported true and whose formatted price string fails normalization, the
stored observation has no price, and its availability is downgraded to
false exactly when the stripped text contains the character `'0'` (a
literal-zero price cannot survive normalization, so that case is covered);
otherwise the reported availability is kept. -/
theorem C5_downgrade_amended (cal : CalMapJ) (fs : List (String × JVal)) (k s : String)
    (hk : pyGet fs "checkin" = JVal.str k) (hk2 : k ≠ "")
    (hav : pyGet fs "available" = JVal.bool true)
    (hfmt : pyGet fs "avgPriceFormatted" = JVal.str s)
    (hfail : parse_avg_price (pyStrip s) = none) :
    mergeOneDay cal (JVal.obj fs) =
      some (mapSet cal (PyKey.str k) ⟨none, !(pyStrip s).toList.contains '0'⟩) := by
  simp only [mergeOneDay]
  rw [hk, hav, hfmt]
  have hkt : (JVal.str k).truthy = true := by
    simp [JVal.truthy, hk2]
  rw [hkt]
  simp only [Bool.not_true, Bool.false_eq_true, if_false, isPyTrue]
  have hs0 : (if (JVal.str s).truthy then JVal.str s else JVal.str "") = JVal.str s := by
    by_cases hs : s = ""
    · subst hs; rfl
    · simp [JVal.truthy, hs]
  rw [hs0]
  simp only [if_true, hfail, toKey, Option.isNone_none, Bool.true_and]
  cases hc : (pyStrip s).toList.contains '0' <;> simp [hc]

/-- C5 witness: the amended statement applied to the `"€ 3"` entry. -/
theorem C5_downgrade_witness :
    mergeOneDay [] (JVal.obj dayAvailable3Fields) =
      some (mapSet [] (PyKey.str "2026-02-11") ⟨none, !(pyStrip "€ 3").toList.contains '0'⟩) :=
  C5_downgrade_amended [] dayAvailable3Fields "2026-02-11" "€ 3" rfl (by decide) rfl rfl
    (by decide)

theorem is_cdl_not_nil (l : List JVal) (h : is_calendar_days_list (JVal.arr l) = true) :
    l.isEmpty = false := by
  cases l with
  | nil => exact absurd h (by decide)
  | cons a rest => rfl

mutual

theorem find_sound : ∀ (v : JVal) (l : List JVal), find_calendar_days v = some l →
    is_calendar_days_list (JVal.arr l) = true
  | .obj fs, l, h => by
    simp only [find_calendar_days] at h
    split at h
    · rename_i hcdl
      cases hd : pyGet fs "days" with
      | arr items =>
        rw [hd] at h hcdl
        cases h
        exact hcdl
      | str s => rw [hd] at h; exact Option.noConfusion h
      | num q => rw [hd] at h; exact Option.noConfusion h
      | bool b => rw [hd] at h; exact Option.noConfusion h
      | null => rw [hd] at h; exact Option.noConfusion h
      | obj fs2 => rw [hd] at h; exact Option.noConfusion h
    · exact find_fields_sound fs l h
  | .arr xs, l, h => by
    simp only [find_calendar_days] at h
    exact find_items_sound xs l h
  | .str s, l, h => by
    simp only [find_calendar_days] at h
    exact Option.noConfusion h
  | .num q, l, h => by
    simp only [find_calendar_days] at h
    exact Option.noConfusion h
  | .bool b, l, h => by
    simp only [find_calendar_days] at h
    exact Option.noConfusion h
  | .null, l, h => by
    simp only [find_calendar_days] at h
    exact Option.noConfusion h

theorem find_fields_sound : ∀ (fs : List (String × JVal)) (l : List JVal),
    find_in_fields fs = some l → is_calendar_days_list (JVal.arr l) = true
  | [], l, h => by
    simp only [find_in_fields] at h
    exact Option.noConfusion h
  | (a, v) :: rest, l, h => by
    simp only [find_in_fields] at h
    split at h
    · rename_i l2 hv
      split at h
      · exact find_fields_sound rest l h
      · cases h
        exact find_sound v _ hv
    · exact find_fields_sound rest l h

theorem find_items_sound : ∀ (xs : List JVal) (l : List JVal),
    find_in_items xs = some l → is_calendar_days_list (JVal.arr l) = true
  | [], l, h => by
    simp only [find_in_items] at h
    exact Option.noConfusion h
  | v :: rest, l, h => by
    simp only [find_in_items] at h
    split at h
    · rename_i l2 hv
      split at h
      · exact find_items_sound rest l h
      · cases h
        exact find_sound v _ hv
    · exact find_items_sound rest l h

end

mutual

theorem find_isSome : ∀ (v : JVal), (find_calendar_days v).isSome = hasDaysNode v
  | .obj fs => by
    simp only [find_calendar_days, hasDaysNode]
    split
    · rename_i hcdl
      cases hd : pyGet fs "days" with
      | arr items =>
        rw [hd] at hcdl
        simp [hcdl]
      | str s => rw [hd] at hcdl; exact Bool.noConfusion hcdl
      | num q => rw [hd] at hcdl; exact Bool.noConfusion hcdl
      | bool b => rw [hd] at hcdl; exact Bool.noConfusion hcdl
      | null => rw [hd] at hcdl; exact Bool.noConfusion hcdl
      | obj fs2 => rw [hd] at hcdl; exact Bool.noConfusion hcdl
    · rename_i hcdl
      rw [Bool.not_eq_true] at hcdl
      rw [hcdl, Bool.false_or]
      exact find_fields_isSome fs
  | .arr xs => by
    simp only [find_calendar_days, hasDaysNode]
    exact find_items_isSome xs
  | .str s => by simp [find_calendar_days, hasDaysNode]
  | .num q => by simp [find_calendar_days, hasDaysNode]
  | .bool b => by simp [find_calendar_days, hasDaysNode]
  | .null => by simp [find_calendar_days, hasDaysNode]

theorem find_fields_isSome : ∀ (fs : List (String × JVal)),
    (find_in_fields fs).isSome = hasDaysFields fs
  | [] => by simp [find_in_fields, hasDaysFields]
  | (a, v) :: rest => by
    simp only [find_in_fields, hasDaysFields]
    cases hv : find_calendar_days v with
    | none =>
      have h1 : hasDaysNode v = false := by rw [← find_isSome v, hv]; rfl
      rw [h1, Bool.false_or]
      exact find_fields_isSome rest
    | some l2 =>
      have h1 : hasDaysNode v = true := by rw [← find_isSome v, hv]; rfl
      have h2 : l2.isEmpty = false := is_cdl_not_nil l2 (find_sound v l2 hv)
      simp [h1, h2]

theorem find_items_isSome : ∀ (xs : List JVal),
    (find_in_items xs).isSome = hasDaysItems xs
  | [] => by simp [find_in_items, hasDaysItems]
  | v :: rest => by
    simp only [find_in_items, hasDaysItems]
    cases hv : find_calendar_days v with
    | none =>
      have h1 : hasDaysNode v = false := by rw [← find_isSome v, hv]; rfl
      rw [h1, Bool.false_or]
      exact find_items_isSome rest
    | some l2 =>
      have h1 : hasDaysNode v = true := by rw [← find_isSome v, hv]; rfl
      have h2 : l2.isEmpty = false := is_cdl_not_nil l2 (find_sound v l2 hv)
      simp [h1, h2]

end

/-- The claim's qualifying condition on one sequence entry: it carries both
a check-in date field and a formatted-price field. -/
def entryHasBothFields : JVal → Bool
  | .obj fs => fs.any (fun p => p.1 == "checkin") && fs.any (fun p => p.1 == "avgPriceFormatted")
  | _ => false

def c7payload : JVal :=
  .obj [("days", .arr [.obj [("checkin", .str "2026-01-01")]])]

/-- C7 counterexample: on a payload whose `"days"` list has a single entry
with a check-in field but no formatted-price field, the structured search
still returns that list — the claim requires every entry to carry both
fields (and would require an absent result here, since no qualifying
sequence exists anywhere in this payload). -/
theorem C7_counterexample :
    find_calendar_days c7payload = some [JVal.obj [("checkin", JVal.str "2026-01-01")]]
    ∧ ([JVal.obj [("checkin", JVal.str "2026-01-01")]].all entryHasBothFields) = false := by
  constructor
  · simp [c7payload, find_calendar_days, is_calendar_days_list, pyGet]
  · rfl

/-- C7 (amended): the structured-payload search returns, by depth-first
traversal, the first `"days"`-keyed list that is non-empty and whose first
entry is a mapping containing a check-in field (later entries and the
formatted-price field are not inspected); its result is present exactly
when such a `"days"` node exists somewhere in the payload. -/
theorem C7_find_days_amended (v : JVal) (xs : List JVal) (h : find_calendar_days v = some xs) :
    is_calendar_days_list (JVal.arr xs) = true
    ∧ (find_calendar_days v).isSome = hasDaysNode v :=
  ⟨find_sound v xs h, find_isSome v⟩

/-- C7 witness: the amended statement applied to the counterexample
payload. -/
theorem C7_find_days_witness :
    is_calendar_days_list
      (JVal.arr [JVal.obj [("checkin", JVal.str "2026-01-01")]]) = true :=
  (C7_find_days_amended c7payload [JVal.obj [("checkin", JVal.str "2026-01-01")]]
    (by simp [c7payload, find_calendar_days, is_calendar_days_list, pyGet])).1

/- ----------------------------------------------------------------
   C3 and C9: snapshot assembly
   ---------------------------------------------------------------- -/

instance : IsTotal Snapshot snapLE := ⟨fun a b => le_total a.dateCheckin b.dateCheckin⟩

instance : IsTrans Snapshot snapLE := ⟨fun _ _ _ h1 h2 => le_trans h1 h2⟩

theorem assemble_dateCheckin (h : Hotel) (cal : List (Int × Obs)) (d : Int) :
    (assemble h cal d).dateCheckin = d := by
  unfold assemble
  cases mapGet cal d <;> rfl

theorem assemble_of_none (h : Hotel) (cal : List (Int × Obs)) (d : Int)
    (hd : mapGet cal d = none) : assemble h cal d = ⟨h.id, d, none, "EUR", false⟩ := by
  unfold assemble
  rw [hd]

/-- C3: for every hotel and every non-empty window of distinct dates the
procedure returns exactly one snapshot per window date (the returned
check-in dates are a permutation of the window), sorted strictly ascending
by check-in date, a date with no collected observation yields an absent
price and available=false, and when steps 1–4 failed (zero observations)
every snapshot of the full window is unavailable. -/
theorem C3_one_snapshot_per_window_date (pb : PageBehavior) (h : Hotel) (dates : List Int)
    (out : List Snapshot) (hout : scrape_hotel_with_page pb h dates = some out)
    (hnd : dates.Nodup) :
    List.Perm (out.map Snapshot.dateCheckin) dates
    ∧ List.Chain' (· < ·) (out.map Snapshot.dateCheckin)
    ∧ (∀ s ∈ out, mapGet (collect_calendar pb dates.length) s.dateCheckin = none →
        s.price = none ∧ s.available = false)
    ∧ (pb.stepsFail = true → ∀ s ∈ out, s.price = none ∧ s.available = false) := by
  cases dates with
  | nil => exact Option.noConfusion hout
  | cons d0 rest =>
    simp only [scrape_hotel_with_page] at hout
    cases hout
    have hmapmap :
        ((d0 :: rest).map (assemble h (collect_calendar pb (d0 :: rest).length))).map
          Snapshot.dateCheckin = d0 :: rest := by
      rw [List.map_map]
      have hfun : (Snapshot.dateCheckin ∘ assemble h (collect_calendar pb (d0 :: rest).length))
          = id := funext (assemble_dateCheckin h _)
      rw [hfun, List.map_id]
    have hperm :
        List.Perm ((List.insertionSort snapLE
            ((d0 :: rest).map (assemble h (collect_calendar pb (d0 :: rest).length)))).map
          Snapshot.dateCheckin) (d0 :: rest) := by
      have := (List.perm_insertionSort snapLE
        ((d0 :: rest).map (assemble h (collect_calendar pb (d0 :: rest).length)))).map
        Snapshot.dateCheckin
      rw [hmapmap] at this
      exact this
    have hmem3 : ∀ s ∈ List.insertionSort snapLE
        ((d0 :: rest).map (assemble h (collect_calendar pb (d0 :: rest).length))),
        mapGet (collect_calendar pb (d0 :: rest).length) s.dateCheckin = none →
        s.price = none ∧ s.available = false := by
      intro s hs hnone
      have hs2 := (List.mem_insertionSort snapLE).1 hs
      obtain ⟨d, _, rfl⟩ := List.mem_map.1 hs2
      rw [assemble_dateCheckin] at hnone
      rw [assemble_of_none h _ d hnone]
      exact ⟨rfl, rfl⟩
    refine ⟨hperm, ?_, hmem3, ?_⟩
    · have hsorted : List.Pairwise snapLE (List.insertionSort snapLE
          ((d0 :: rest).map (assemble h (collect_calendar pb (d0 :: rest).length)))) :=
        List.sorted_insertionSort snapLE _
      have hple := hsorted.map Snapshot.dateCheckin (fun _ _ hab => hab)
      have hnd2 := (hperm.nodup_iff).2 hnd
      exact (List.Sorted.lt_of_le hple hnd2).chain'
    · intro hsf s hs
      refine hmem3 s hs ?_
      simp [collect_calendar, hsf, mapGet]

/-- Hotel record used by concrete runs below. -/
def hotelW : Hotel := ⟨"hw", "Hotel W", "urlW"⟩

/-- Page behaviour whose steps 1–4 fail (navigation error). -/
def pbFailW : PageBehavior := ⟨true, []⟩

/-- C3 witness: the window property applied to a failing page over the
window `[1, 2]` — the full window of unavailable snapshots comes back. -/
theorem C3_window_witness :
    List.Perm (([⟨"hw", 1, none, "EUR", false⟩, ⟨"hw", 2, none, "EUR", false⟩] :
      List Snapshot).map Snapshot.dateCheckin) [1, 2] :=
  (C3_one_snapshot_per_window_date pbFailW hotelW [1, 2] _ rfl (by decide)).1

/-- C9: every snapshot the procedure emits satisfies
`available = (price is present)`, whatever the collected observations
carried (in particular an observation with available=true and no price
still yields an unavailable snapshot). -/
theorem C9_available_iff_price (pb : PageBehavior) (h : Hotel) (dates : List Int)
    (out : List Snapshot) (hout : scrape_hotel_with_page pb h dates = some out) :
    ∀ s ∈ out, s.available = s.price.isSome := by
  cases dates with
  | nil => exact Option.noConfusion hout
  | cons d0 rest =>
    simp only [scrape_hotel_with_page] at hout
    cases hout
    intro s hs
    have hs2 := (List.mem_insertionSort snapLE).1 hs
    obtain ⟨d, _, rfl⟩ := List.mem_map.1 hs2
    unfold assemble
    cases hmg : mapGet (collect_calendar pb (d0 :: rest).length) d <;> simp [hmg]

/-- Page behaviour whose single extraction pass reports date 1 available
without a price. -/
def pbNoPriceW : PageBehavior := ⟨false, [.ok [(1, ⟨none, true⟩)]]⟩

/-- C9 witness: the invariant applied to a run whose observation carried
available=true with no price; the emitted snapshot is unavailable. -/
theorem C9_available_iff_price_witness :
    (Snapshot.mk "hw" 1 none "EUR" false).available =
      (Snapshot.mk "hw" 1 none "EUR" false).price.isSome :=
  C9_available_iff_price pbNoPriceW hotelW [1] [⟨"hw", 1, none, "EUR", false⟩] rfl
    (Snapshot.mk "hw" 1 none "EUR" false) (by simp)


/- ----------------------------------------------------------------
   C2, C8, C10: the multi-hotel strategies
   ---------------------------------------------------------------- -/

theorem hotelStep_snd (dates : List Int) (acc : RunStats × List Snapshot) (r : HotelRun) :
    (hotelStep dates acc r).2 = acc.2 ++ perHotelBlock dates r := by
  obtain ⟨st, sn⟩ := acc
  unfold hotelStep perHotelBlock
  by_cases hsf : r.sessionFails
  · simp [hsf]
  · cases hsc : scrape_hotel_with_page r.pb r.hotel dates <;> simp [hsf, hsc]

theorem foldl_hotelStep_snd (dates : List Int) (runs : List HotelRun)
    (acc : RunStats × List Snapshot) :
    (runs.foldl (hotelStep dates) acc).2 =
      acc.2 ++ (runs.map (perHotelBlock dates)).flatten := by
  induction runs generalizing acc with
  | nil => simp
  | cons r rest ih =>
    rw [List.foldl_cons, ih, hotelStep_snd]
    simp

theorem hotelStep_stats (dates : List Int) (acc : RunStats × List Snapshot) (r : HotelRun) :
    (hotelStep dates acc r).1.total_hotels = acc.1.total_hotels
    ∧ (hotelStep dates acc r).1.successful_hotels + (hotelStep dates acc r).1.failed_hotels
        = acc.1.successful_hotels + acc.1.failed_hotels + 1
    ∧ (hotelStep dates acc r).1.errors.length + acc.1.failed_hotels
        = acc.1.errors.length + (hotelStep dates acc r).1.failed_hotels
    ∧ (hotelStep dates acc r).1.total_snapshots + acc.2.length
        = acc.1.total_snapshots + (hotelStep dates acc r).2.length := by
  obtain ⟨st, sn⟩ := acc
  unfold hotelStep
  by_cases hsf : r.sessionFails
  · simp [hsf]
    omega
  · cases hsc : scrape_hotel_with_page r.pb r.hotel dates <;> simp [hsf, hsc] <;> omega

theorem foldl_hotelStep_stats (dates : List Int) (runs : List HotelRun)
    (acc : RunStats × List Snapshot) :
    (runs.foldl (hotelStep dates) acc).1.total_hotels = acc.1.total_hotels
    ∧ (runs.foldl (hotelStep dates) acc).1.successful_hotels
        + (runs.foldl (hotelStep dates) acc).1.failed_hotels
        = acc.1.successful_hotels + acc.1.failed_hotels + runs.length
    ∧ (runs.foldl (hotelStep dates) acc).1.errors.length + acc.1.failed_hotels
        = acc.1.errors.length + (runs.foldl (hotelStep dates) acc).1.failed_hotels
    ∧ (runs.foldl (hotelStep dates) acc).1.total_snapshots + acc.2.length
        = acc.1.total_snapshots + (runs.foldl (hotelStep dates) acc).2.length := by
  induction runs generalizing acc with
  | nil => simp
  | cons r rest ih =>
    rw [List.foldl_cons]
    obtain ⟨h1, h2, h3, h4⟩ := hotelStep_stats dates acc r
    obtain ⟨g1, g2, g3, g4⟩ := ih (hotelStep dates acc r)
    refine ⟨by omega, by simp only [List.length_cons]; omega, by omega, by omega⟩

/-- The internal-consistency condition C10 asserts of one strategy result. -/
def statsConsistent (n : Nat) (res : RunStats × List Snapshot) : Prop :=
  res.1.total_hotels = n
  ∧ res.1.successful_hotels + res.1.failed_hotels = n
  ∧ res.1.errors.length = res.1.failed_hotels
  ∧ res.1.total_snapshots = res.2.length

theorem foldl_statsConsistent (dates : List Int) (runs : List HotelRun) (n : Nat)
    (hn : runs.length = n) :
    statsConsistent n (runs.foldl (hotelStep dates) (initStats n, [])) := by
  obtain ⟨h1, h2, h3, h4⟩ := foldl_hotelStep_stats dates runs (initStats n, [])
  have e1 : (initStats n, ([] : List Snapshot)).1.total_hotels = n := rfl
  have e2 : (initStats n, ([] : List Snapshot)).1.successful_hotels = 0 := rfl
  have e3 : (initStats n, ([] : List Snapshot)).1.failed_hotels = 0 := rfl
  have e4 : (initStats n, ([] : List Snapshot)).1.errors.length = 0 := rfl
  have e5 : (initStats n, ([] : List Snapshot)).1.total_snapshots = 0 := rfl
  have e6 : ((initStats n, ([] : List Snapshot)).2).length = 0 := rfl
  rw [e1] at h1
  rw [e2, e3] at h2
  rw [e3, e4] at h3
  rw [e5, e6] at h4
  unfold statsConsistent
  refine ⟨h1, by omega, by omega, by omega⟩

/-- C10: for every hotel list, window and strategy (the parallel strategy
over any completion order), the returned `RunStats` is internally
consistent: `total_hotels` is the input count, successes and failures
partition it, the error list has exactly `failed_hotels` entries, and
`total_snapshots` is the length of the returned snapshot list. -/
theorem C10_runstats_consistent (hotels completed : List HotelRun) (dates : List Int)
    (hperm : List.Perm completed hotels) :
    statsConsistent hotels.length (strategy_1_isolated hotels dates)
    ∧ statsConsistent hotels.length (strategy_2_shared_browser hotels dates)
    ∧ statsConsistent hotels.length (strategy_3_parallel hotels completed dates) := by
  refine ⟨foldl_statsConsistent dates hotels _ rfl,
    foldl_statsConsistent dates hotels _ rfl,
    foldl_statsConsistent dates completed _ hperm.length_eq⟩

/-- C10 witness: consistency of a concrete 2-hotel run (one session
failure) under all three strategies, with the parallel completion order
reversed. -/
theorem C10_runstats_witness :
    statsConsistent 2 (strategy_1_isolated [⟨⟨"a", "A", "u"⟩, false, ⟨true, []⟩⟩,
      ⟨⟨"b", "B", "v"⟩, true, ⟨true, []⟩⟩] [1])
    ∧ statsConsistent 2 (strategy_2_shared_browser [⟨⟨"a", "A", "u"⟩, false, ⟨true, []⟩⟩,
      ⟨⟨"b", "B", "v"⟩, true, ⟨true, []⟩⟩] [1])
    ∧ statsConsistent 2 (strategy_3_parallel [⟨⟨"a", "A", "u"⟩, false, ⟨true, []⟩⟩,
      ⟨⟨"b", "B", "v"⟩, true, ⟨true, []⟩⟩]
      [⟨⟨"b", "B", "v"⟩, true, ⟨true, []⟩⟩, ⟨⟨"a", "A", "u"⟩, false, ⟨true, []⟩⟩] [1]) :=
  C10_runstats_consistent
    [⟨⟨"a", "A", "u"⟩, false, ⟨true, []⟩⟩, ⟨⟨"b", "B", "v"⟩, true, ⟨true, []⟩⟩]
    [⟨⟨"b", "B", "v"⟩, true, ⟨true, []⟩⟩, ⟨⟨"a", "A", "u"⟩, false, ⟨true, []⟩⟩]
    [1] (List.Perm.swap _ _ _)

/-- C8: the Isolated and SharedSession strategies return the concatenation
of the per-hotel snapshot blocks in hotel input order, while
BoundedParallel returns the same blocks concatenated in completion order
(any permutation of the input list). -/
theorem C8_strategy_order (hotels completed : List HotelRun) (dates : List Int)
    (_hperm : List.Perm completed hotels) :
    (strategy_1_isolated hotels dates).2 = (hotels.map (perHotelBlock dates)).flatten
    ∧ (strategy_2_shared_browser hotels dates).2 = (hotels.map (perHotelBlock dates)).flatten
    ∧ (strategy_3_parallel hotels completed dates).2
        = (completed.map (perHotelBlock dates)).flatten := by
  refine ⟨?_, ?_, ?_⟩ <;>
    simp [strategy_1_isolated, strategy_2_shared_browser, strategy_3_parallel,
      foldl_hotelStep_snd]

/-- C8 witness: the ordering statement applied to a concrete 2-hotel run
with the parallel completion order reversed. -/
theorem C8_strategy_order_witness :
    (strategy_1_isolated [⟨⟨"a", "A", "u"⟩, false, ⟨true, []⟩⟩,
        ⟨⟨"b", "B", "v"⟩, true, ⟨true, []⟩⟩] [1]).2 =
      (([⟨⟨"a", "A", "u"⟩, false, ⟨true, []⟩⟩, ⟨⟨"b", "B", "v"⟩, true, ⟨true, []⟩⟩] :
        List HotelRun).map (perHotelBlock [1])).flatten :=
  (C8_strategy_order
    [⟨⟨"a", "A", "u"⟩, false, ⟨true, []⟩⟩, ⟨⟨"b", "B", "v"⟩, true, ⟨true, []⟩⟩]
    [⟨⟨"b", "B", "v"⟩, true, ⟨true, []⟩⟩, ⟨⟨"a", "A", "u"⟩, false, ⟨true, []⟩⟩]
    [1] (List.Perm.swap _ _ _)).1


/- ----------------------------------------------------------------
   C2: navigation failure inside a run
   ---------------------------------------------------------------- -/

theorem orderedInsert_map_snap (f : Int → Snapshot) (hf : ∀ d, (f d).dateCheckin = d)
    (a : Int) (l : List Int) :
    List.orderedInsert snapLE (f a) (l.map f) = (List.orderedInsert (· ≤ ·) a l).map f := by
  induction l with
  | nil => rfl
  | cons b rest ih =>
    simp only [List.map_cons, List.orderedInsert]
    have hiff : snapLE (f a) (f b) ↔ a ≤ b := by
      show (f a).dateCheckin ≤ (f b).dateCheckin ↔ a ≤ b
      rw [hf a, hf b]
    by_cases hab : a ≤ b
    · rw [if_pos (hiff.2 hab), if_pos hab, List.map_cons]
      rfl
    · rw [if_neg (fun hh => hab (hiff.1 hh)), if_neg hab, List.map_cons, ih]

theorem insertionSort_map_snap (f : Int → Snapshot) (hf : ∀ d, (f d).dateCheckin = d) :
    ∀ l : List Int,
      List.insertionSort snapLE (l.map f) = (List.insertionSort (· ≤ ·) l).map f
  | [] => rfl
  | a :: rest => by
    simp only [List.map_cons, List.insertionSort]
    rw [insertionSort_map_snap f hf rest, orderedInsert_map_snap f hf]

/-- When steps 1–4 fail (e.g. navigation) but the session was acquired, the
hotel's block is still the full window of unavailable snapshots. -/
theorem perHotelBlock_navFail (r : HotelRun) (d0 : Int) (rest : List Int)
    (hsf : r.sessionFails = false) (hnav : r.pb.stepsFail = true) :
    perHotelBlock (d0 :: rest) r =
      (List.insertionSort (· ≤ ·) (d0 :: rest)).map
        (fun d => ⟨r.hotel.id, d, none, "EUR", false⟩) := by
  unfold perHotelBlock
  simp only [hsf, Bool.false_eq_true, if_false]
  simp only [scrape_hotel_with_page]
  have hcal : collect_calendar r.pb (d0 :: rest).length = [] := by
    simp [collect_calendar, hnav]
  rw [hcal]
  have hasm : assemble r.hotel ([] : List (Int × Obs)) =
      (fun d => (⟨r.hotel.id, d, none, "EUR", false⟩ : Snapshot)) := by
    funext d
    exact assemble_of_none r.hotel [] d rfl
  rw [Option.getD_some, hasm, insertionSort_map_snap _ (fun d => rfl)]

/-- Page behaviour delivering priced observations for dates 1 and 2. -/
def pbOKW : PageBehavior :=
  ⟨false, [.ok [(1, ⟨some 100, true⟩), (2, ⟨some 200, true⟩)]]⟩

/-- Hotel A, session fine, page fine. -/
def runA : HotelRun := ⟨⟨"a", "Hotel A", "urlA"⟩, false, pbOKW⟩

/-- Hotel B, session fine, navigation fails. -/
def runB : HotelRun := ⟨⟨"b", "Hotel B", "urlB"⟩, false, pbFailW⟩

/-- Hotel C, session fine, page fine. -/
def runC : HotelRun := ⟨⟨"c", "Hotel C", "urlC"⟩, false, pbOKW⟩

/-- C2 counterexample: in the orchestrated 3-hotel run where exactly hotel
B's navigation fails (everything else succeeds), the code's run statistics
are `successful_hotels = 3`, `failed_hotels = 0` and no error entry — not
the claimed `failed_hotels = 1` / `successful_hotels = 2` with one error
naming the failed hotel.  The navigation failure is swallowed inside
`scrape_hotel_with_page`'s catch-all `except`, which also contributes
`total_snapshots = 6` (hotel B returns a full unavailable window). -/
theorem C2_counterexample :
    (strategy_1_isolated [runA, runB, runC] [1, 2]).1 =
      { total_hotels := 3, total_snapshots := 6, successful_hotels := 3,
        failed_hotels := 0, errors := [] }
    ∧ (strategy_1_isolated [runA, runB, runC] [1, 2]).1.failed_hotels ≠ 1 := by
  exact ⟨rfl, by decide⟩

/-- C2 (amended): in an Isolated run over 3 hotels where one hotel's
navigation fails and all sessions are acquired, the run returns
`successful_hotels = 3`, `failed_hotels = 0` and an empty error list (the
navigation failure is caught inside the per-hotel procedure and never
reaches the orchestrator's accounting); the snapshot list still contains
every hotel's block in input order, and the navigation-failed hotel's block
is its full window of unavailable snapshots. -/
theorem C2_nav_failure_amended (r1 r2 r3 : HotelRun) (d0 : Int) (rest : List Int)
    (hnav : r2.pb.stepsFail = true)
    (h1 : r1.sessionFails = false) (h2 : r2.sessionFails = false)
    (h3 : r3.sessionFails = false) :
    (strategy_1_isolated [r1, r2, r3] (d0 :: rest)).1.successful_hotels = 3
    ∧ (strategy_1_isolated [r1, r2, r3] (d0 :: rest)).1.failed_hotels = 0
    ∧ (strategy_1_isolated [r1, r2, r3] (d0 :: rest)).1.errors = []
    ∧ (strategy_1_isolated [r1, r2, r3] (d0 :: rest)).2 =
        perHotelBlock (d0 :: rest) r1 ++ (perHotelBlock (d0 :: rest) r2
          ++ perHotelBlock (d0 :: rest) r3)
    ∧ perHotelBlock (d0 :: rest) r2 =
        (List.insertionSort (· ≤ ·) (d0 :: rest)).map
          (fun d => ⟨r2.hotel.id, d, none, "EUR", false⟩) := by
  refine ⟨?_, ?_, ?_, ?_, perHotelBlock_navFail r2 d0 rest h2 hnav⟩
  · simp [strategy_1_isolated, hotelStep, h1, h2, h3, scrape_hotel_with_page, initStats]
  · simp [strategy_1_isolated, hotelStep, h1, h2, h3, scrape_hotel_with_page, initStats]
  · simp [strategy_1_isolated, hotelStep, h1, h2, h3, scrape_hotel_with_page, initStats]
  · simpa [strategy_1_isolated] using
      foldl_hotelStep_snd (d0 :: rest) [r1, r2, r3] (initStats 3, [])

/-- C2 witness: the amended run shape at the concrete three hotels of the
counterexample, window `[1, 2]`. -/
theorem C2_nav_failure_witness :
    perHotelBlock [1, 2] runB =
      (List.insertionSort (· ≤ ·) [1, 2]).map
        (fun d => ⟨runB.hotel.id, d, none, "EUR", false⟩) :=
  (C2_nav_failure_amended runA runB runC 1 [2] rfl rfl rfl rfl).2.2.2.2

end Booking
